import Mathlib

/-
Verification of the decode loop and serving facade in `generate.py`
(`generate_stream`, `chatglm_generate_stream`, `ModelServer`).

Shallow embedding conventions:
* Python floats are modelled as rationals (ℚ); the literals 1e-5 and 1e-8 are
  read as the exact rationals 1/100000 and 1/100000000 (written with mkRat so that they evaluate).
* Token ids are naturals, decoded text is a list of characters.
* The external collaborators (torch model forward pass, HuggingFace logits
  warpers, the tokenizer, softmax/multinomial draws) are parameters gathered
  in the `Externals` structure; the in-repo code that wires them together is
  embedded concretely.
* A Python generator is modelled as the list of events it yields together
  with an optional exception that terminated it (`List Event × Option PyErr`).
* The in-place mutations of the caller's `params` dict (lines 133-134 and
  346-347 of generate.py) are modelled as explicit before/after functions on
  the parameter record.
-/

/-- Token ids (`input_ids` entries). -/
abbrev Token := Nat

/-- Decoded text, modelling a Python `str` as its character sequence. -/
abbrev Text := List Char

/-- A score vector for the next position (one rational per vocabulary entry). -/
abbrev Logits := List ℚ

/-- Terminal classification of a generation (`finish_reason` values). -/
inductive FinishReason where
  | stop
  | length
deriving DecidableEq, Repr

/-- The `usage` dictionary attached to every yielded event. -/
structure Usage where
  prompt_tokens : Nat
  completion_tokens : Nat
  total_tokens : Nat
deriving DecidableEq, Repr

/-- One dictionary yielded by a decode loop (lines 96-104, 108-117, 249-257,
270-278 of generate.py). -/
structure Event where
  text : Text
  usage : Usage
  finish_reason : Option FinishReason
deriving DecidableEq, Repr

/-- Python exceptions relevant to this module: `torch.cuda.OutOfMemoryError`,
`ValueError`, `RuntimeError`, and the `NameError` raised when the loop body
never ran and line 263 reads the unbound variable `i`. -/
inductive PyErr where
  | oom
  | valueError
  | runtimeError
  | nameError
deriving DecidableEq, Repr

/-- The `stop` field of the request: absent, a single string, a list of
strings, or a (truthy) value of some other type, which line 247 rejects. -/
inductive StopSpec where
  | none
  | str (s : Text)
  | strs (l : List Text)
  | invalid
deriving DecidableEq, Repr

/-- One chat message of a list-valued prompt. -/
structure Message where
  role : Text
  content : Text
deriving DecidableEq, Repr

/-- The `prompt` field: either already-rendered text or a list of messages. -/
inductive PromptVal where
  | str (t : Text)
  | msgs (m : List Message)
deriving DecidableEq, Repr

/-- The request parameters read by `generate_stream` (lines 124-133), with
Python's `params.get` defaulting already applied, except for
`stop_token_ids`, whose raw value (absent or a caller-supplied list) matters
because line 134 mutates it in place. -/
structure Params where
  prompt : PromptVal
  temperature : ℚ
  repetition_penalty : ℚ
  top_p : ℚ
  top_k : Int
  max_new_tokens : Nat
  stop : StopSpec
  echo : Bool
  stop_token_ids : Option (List Token)
deriving DecidableEq, Repr

/-- The prompt as text. `generate_stream` is only ever reached with a string
prompt (the facade replaces a list prompt at line 347 before calling it); the
list case is represented by empty text and never exercised. -/
def Params.promptText (p : Params) : Text :=
  match p.prompt with
  | PromptVal.str t => t
  | PromptVal.msgs _ => []

/-- The logits processors selected by `prepare_logits_processor`
(lines 20-33); the transformations themselves live in the external
`transformers` library and are represented by these tags. -/
inductive Warper where
  | temperature (t : ℚ)
  | repetitionPenalty (p : ℚ)
  | topP (p : ℚ)
  | topK (k : Int)
deriving DecidableEq, Repr

/-- Lines 20-33: the ordered, conditionally-included processor list. -/
def prepare_logits_processor (temperature repetition_penalty top_p : ℚ)
    (top_k : Int) : List Warper :=
  (if mkRat 1 100000 ≤ temperature ∧ temperature ≠ 1 then [Warper.temperature temperature] else []) ++
  (if 1 < repetition_penalty then [Warper.repetitionPenalty repetition_penalty] else []) ++
  (if mkRat 1 100000000 ≤ top_p ∧ top_p < 1 then [Warper.topP top_p] else []) ++
  (if 0 < top_k then [Warper.topK top_k] else [])

/-- Lines 133-134: `stop_token_ids = params.get("stop_token_ids", None) or []`
followed by `stop_token_ids.append(tokenizer.eos_token_id)`. A falsy value
(absent or the empty list) is replaced by a fresh list before the append. -/
def effectiveStopIds (ids : Option (List Token)) (eos : Token) : List Token :=
  (match ids with
   | some l => if l = [] then [] else l
   | none => []) ++ [eos]

/-- The caller-visible effect of lines 133-134 on `params`: the append lands
in the caller's list exactly when that list was non-empty (a falsy value was
replaced by a fresh list, leaving the caller's object untouched). -/
def generate_stream_params_after (p : Params) (eos : Token) : Params :=
  { p with stop_token_ids :=
      match p.stop_token_ids with
      | some l => if l = [] then some l else some (l ++ [eos])
      | none => none }

/-- Line 149: `input_ids = input_ids[-max_src_len:]` with Python slice
semantics for an arbitrary integer `max_src_len` (note `l[-0:]` is all of
`l`, and a negative start index is clamped to the front). -/
def pyTailSlice (l : List Token) (max_src_len : Int) : List Token :=
  if 0 ≤ -max_src_len then l.drop (-max_src_len).toNat
  else l.drop (max 0 ((l.length : Int) - max_src_len)).toNat

/-- Scan for the running maximum: `bv`/`best` are the best value and its
index so far, `idx` the index of the head of the remaining list. A strictly
greater value is required to displace the incumbent, so the first maximal
entry wins. -/
def argmaxAux : List ℚ → ℚ → Nat → Nat → Nat
  | [], _, _, best => best
  | x :: xs, bv, idx, best =>
    if bv < x then argmaxAux xs x (idx + 1) idx else argmaxAux xs bv (idx + 1) best

/-- Line 208: `int(torch.argmax(last_token_logits))` — the index of the
maximum score, ties broken by the lowest index. -/
def argmax (l : Logits) : Nat :=
  match l with
  | [] => 0
  | x :: xs => argmaxAux xs x 1 0

/-- Lines 207-211: greedy argmax when `temperature < 1e-5 or top_p < 1e-8`,
otherwise one multinomial draw from the softmax of the transformed scores
(softmax and the draw are torch externals, passed in as functions). -/
def selectToken (temperature top_p : ℚ) (multinomialSample : Logits → Token)
    (softmax : Logits → Logits) (last_token_logits : Logits) : Token :=
  if temperature < mkRat 1 100000 ∨ top_p < mkRat 1 100000000 then argmax last_token_logits
  else multinomialSample (softmax last_token_logits)

/-- Line 60 of `chatglm_generate_stream`:
`"do_sample": True if temperature > 1e-5 else False` — the chat loop's
sampling switch depends only on temperature. -/
def chatglm_do_sample (temperature : ℚ) : Bool :=
  decide (mkRat 1 100000 < temperature)

/-- The substring `sub` occurs in `s` at character index `q`. -/
def occursAt (s sub : Text) (q : Nat) : Prop :=
  q + sub.length ≤ s.length ∧ (s.drop q).take sub.length = sub

instance (s sub : Text) (q : Nat) : Decidable (occursAt s sub q) := by
  unfold occursAt; infer_instance

/-- Python `s.rfind(sub, start)`: the largest index `≥ start` at which `sub`
occurs wholly inside `s`, or `None` for Python's `-1`. -/
def pyRfind (s sub : Text) (start : Nat) : Option Nat :=
  ((List.range (s.length + 1)).filter fun q => decide (start ≤ q ∧ occursAt s sub q)).getLast?

/-- Lines 234-238: a single stop string — `rfind` then truncate at the match
start. Returns the (possibly truncated) text and whether a stop was hit. -/
def applyStopSingle (output : Text) (s : Text) (rfind_start : Nat) : Text × Bool :=
  match pyRfind output s rfind_start with
  | some pos => (output.take pos, true)
  | Option.none => (output, false)

/-- Lines 239-245: a list of stop strings, checked in order, stopping at the
first hit (the `break`). -/
def applyStopList (output : Text) (stops : List Text) (rfind_start : Nat) : Text × Bool :=
  match stops with
  | [] => (output, false)
  | s :: rest =>
    match pyRfind output s rfind_start with
    | some pos => (output.take pos, true)
    | Option.none => applyStopList output rest rfind_start

/-- Python truthiness of the `stop` field (line 233 `if stop_str:`): `None`
and empty containers are falsy; a generic object of another type is truthy. -/
def StopSpec.truthy : StopSpec → Bool
  | StopSpec.none => false
  | StopSpec.str s => !s.isEmpty
  | StopSpec.strs l => !l.isEmpty
  | StopSpec.invalid => true

/-- Lines 233-247: dispatch on the type of `stop_str`; a truthy value that is
neither a string nor an iterable raises `ValueError("Invalid stop field
type.")`. -/
def applyStop (stop : StopSpec) (output : Text) (rfind_start : Nat) :
    Except PyErr (Text × Bool) :=
  if stop.truthy then
    match stop with
    | StopSpec.str s => Except.ok (applyStopSingle output s rfind_start)
    | StopSpec.strs l => Except.ok (applyStopList output l rfind_start)
    | StopSpec.invalid => Except.error PyErr.valueError
    | StopSpec.none => Except.ok (output, false)
  else Except.ok (output, false)

/-- The external collaborators of the loop, over an opaque cache type `K`
(`past_key_values`). `score` is the model forward pass: called once with the
(truncated) prompt and no cache, then with a single token plus the cache.
`applyProcessors` is `LogitsProcessorList.__call__`; `softmax` and
`multinomial` are the torch sampling primitives, the latter indexed by the
step number to carry its randomness source. -/
structure Externals (K : Type) where
  encode : Text → List Token
  decode : List Token → Text
  eos_token_id : Token
  score : List Token → Option K → Logits × K
  applyProcessors : List Warper → Option (List Token) → Logits → Logits
  softmax : Logits → Logits
  multinomial : Nat → Logits → Token
  is_encoder_decoder : Bool

/-- Everything `generate_stream` computes before entering its loop
(lines 124-149): the full prompt token buffer, its truncation for the first
model call, lengths, the effective stop sets and the processor list. -/
structure Ctx (K : Type) where
  E : Externals K
  input_ids : List Token
  inputIdsTrunc : List Token
  input_echo_len : Nat
  len_prompt : Nat
  max_new_tokens : Nat
  stream_interval : Nat
  stop_token_ids : List Token
  stop : StopSpec
  echo : Bool
  temperature : ℚ
  repetition_penalty : ℚ
  top_p : ℚ
  procs : List Warper

/-- The loop-carried Python variables. `outputText`, `stopped` and `iLast`
start unbound (`none`) — reading them after a zero-iteration loop is the
`NameError` of line 263. `scorerInputs` is a ghost trace recording the token
sequence passed to each model invocation; it affects nothing else. -/
structure LoopSt (K : Type) where
  past : Option K
  lastToken : Token
  output_ids : List Token
  outputText : Option Text
  stopped : Option Bool
  iLast : Option Nat
  scorerInputs : List (List Token)
deriving DecidableEq

/-- Equality of `Except` results is decidable componentwise (needed to
evaluate the embedding on concrete inputs). -/
instance instDecEqExcept {e a : Type} [DecidableEq e] [DecidableEq a] :
    DecidableEq (Except e a) := fun x y =>
  match x, y with
  | Except.error u, Except.error v =>
    if h : u = v then isTrue (by rw [h])
    else isFalse (by intro hc; injection hc with hc; exact h hc)
  | Except.error _, Except.ok _ => isFalse (by intro hc; exact Except.noConfusion hc)
  | Except.ok _, Except.error _ => isFalse (by intro hc; exact Except.noConfusion hc)
  | Except.ok u, Except.ok v =>
    if h : u = v then isTrue (by rw [h])
    else isFalse (by intro hc; injection hc with hc; exact h hc)

/-- Lines 140-161: initial state. `output_ids = list(input_ids)` holds the
full, untruncated prompt (line 142 runs before the truncation at line 149). -/
def initSt (K : Type) (input_ids : List Token) : LoopSt K :=
  { past := none, lastToken := 0, output_ids := input_ids, outputText := none,
    stopped := none, iLast := none, scorerInputs := [] }

/-- Lines 124-149 as a function of the request: note `input_echo_len` and the
buffer are taken from the full `input_ids`, and only the scorer input is
truncated to the last `max_src_len` tokens. -/
def mkCtx {K : Type} (E : Externals K) (p : Params) (context_len stream_interval : Nat) :
    Ctx K :=
  let prompt := p.promptText
  let input_ids := E.encode prompt
  let max_src_len : Int :=
    if E.is_encoder_decoder then (context_len : Int)
    else (context_len : Int) - (p.max_new_tokens : Int) - 8
  { E := E
    input_ids := input_ids
    inputIdsTrunc := pyTailSlice input_ids max_src_len
    input_echo_len := input_ids.length
    len_prompt := prompt.length
    max_new_tokens := p.max_new_tokens
    stream_interval := stream_interval
    stop_token_ids := effectiveStopIds p.stop_token_ids E.eos_token_id
    stop := p.stop
    echo := p.echo
    temperature := p.temperature
    repetition_penalty := p.repetition_penalty
    top_p := p.top_p
    procs := prepare_logits_processor p.temperature p.repetition_penalty p.top_p p.top_k }

/-- The token sequence handed to the model at step `i` (lines 163-192): the
truncated prompt on the first step, then exactly the single latest token
(the cache carries the rest — for an encoder-decoder model the first-step
ids feed the encoder, with the decoder seeded internally). -/
def stepInput {K : Type} (ctx : Ctx K) (i : Nat) (st : LoopSt K) : List Token :=
  if i = 0 then ctx.inputIdsTrunc else [st.lastToken]

/-- The replacement cache produced by the step-`i` model call. -/
def stepCache {K : Type} (ctx : Ctx K) (i : Nat) (st : LoopSt K) : K :=
  (ctx.E.score (stepInput ctx i st) st.past).2

/-- Lines 194-201: apply the processor list when non-empty, handing it the
full `output_ids` history exactly when `repetition_penalty > 1.0`. -/
def transformLogits {K : Type} (ctx : Ctx K) (logits : Logits)
    (output_ids : List Token) : Logits :=
  if ctx.procs.isEmpty then logits
  else ctx.E.applyProcessors ctx.procs
    (if 1 < ctx.repetition_penalty then some output_ids else none) logits

/-- The token chosen at step `i` (lines 194-211). -/
def stepToken {K : Type} (ctx : Ctx K) (i : Nat) (st : LoopSt K) : Token :=
  selectToken ctx.temperature ctx.top_p (ctx.E.multinomial i) ctx.E.softmax
    (transformLogits ctx (ctx.E.score (stepInput ctx i st) st.past).1 st.output_ids)

/-- Lines 215-218: is the freshly produced token a stop token? -/
def stepStopTok {K : Type} (ctx : Ctx K) (i : Nat) (st : LoopSt K) : Bool :=
  decide (stepToken ctx i st ∈ ctx.stop_token_ids)

/-- Line 220: emit on the stream cadence, on the last step, or on a token
stop. -/
def emitCond {K : Type} (ctx : Ctx K) (i : Nat) (stoppedTok : Bool) : Bool :=
  i % ctx.stream_interval == 0 || i == ctx.max_new_tokens - 1 || stoppedTok

/-- Lines 221-247: render the decoded text for this emission (from the full
buffer when echoing, else only the generated part) and run the stop-string
scan from `rfind_start`. -/
def renderAndStop {K : Type} (ctx : Ctx K) (output_ids : List Token) :
    Except PyErr (Text × Bool) :=
  applyStop ctx.stop
    (ctx.E.decode (if ctx.echo then output_ids else output_ids.drop ctx.input_echo_len))
    (if ctx.echo then ctx.len_prompt else 0)

/-- One iteration of the `for i in range(max_new_tokens)` body
(lines 162-257): score, transform, select, append, token-stop check, and —
on emission steps — render, string-stop check and yield (`finish_reason` is
always `None` here; only the post-loop event carries one). -/
def genStep {K : Type} (ctx : Ctx K) (i : Nat) (st : LoopSt K) :
    Except PyErr (LoopSt K × Option Event) :=
  if emitCond ctx i (stepStopTok ctx i st) then
    match renderAndStop ctx (st.output_ids ++ [stepToken ctx i st]) with
    | Except.error e => Except.error e
    | Except.ok (output, hit) =>
      Except.ok
        ({ past := some (stepCache ctx i st), lastToken := stepToken ctx i st,
           output_ids := st.output_ids ++ [stepToken ctx i st],
           outputText := some output, stopped := some (stepStopTok ctx i st || hit),
           iLast := some i, scorerInputs := st.scorerInputs ++ [stepInput ctx i st] },
         some { text := output,
                usage := { prompt_tokens := ctx.input_echo_len, completion_tokens := i,
                           total_tokens := ctx.input_echo_len + i },
                finish_reason := none })
  else
    Except.ok
      ({ past := some (stepCache ctx i st), lastToken := stepToken ctx i st,
         output_ids := st.output_ids ++ [stepToken ctx i st],
         outputText := st.outputText, stopped := some (stepStopTok ctx i st),
         iLast := some i, scorerInputs := st.scorerInputs ++ [stepInput ctx i st] }, none)

/-- The loop itself, by remaining fuel (`fuel = max_new_tokens - i`): events
yielded so far, and either the state after the loop or the exception that
ended the generator. `if stopped: break` is line 259. -/
def genLoopAux {K : Type} (ctx : Ctx K) :
    Nat → Nat → LoopSt K → List Event × Except PyErr (LoopSt K)
  | 0, _, st => ([], Except.ok st)
  | Nat.succ fuel, i, st =>
    match genStep ctx i st with
    | Except.error e => ([], Except.error e)
    | Except.ok (st', evOpt) =>
      if st'.stopped = some true then (evOpt.toList, Except.ok st')
      else
        (evOpt.toList ++ (genLoopAux ctx fuel (i + 1) st').1,
         (genLoopAux ctx fuel (i + 1) st').2)

/-- The outcome of one full `generate_stream` call: the yielded events, the
exception that ended the generator (if any), and — for proofs — the final
loop state when the loop itself did not raise. -/
structure RunOut (K : Type) where
  events : List Event
  err : Option PyErr
  final : Option (LoopSt K)

/-- Lines 120-281: run the loop, then build the terminal event of
lines 262-278. Reading `i` / `output` / `stopped` after a zero-iteration
loop raises `NameError`. The terminal `finish_reason` is `"length"` when the
last step index is `max_new_tokens - 1` (taking precedence over a stop),
else `"stop"` when stopped. -/
def generate_stream_run {K : Type} (E : Externals K) (p : Params)
    (context_len stream_interval : Nat) : RunOut K :=
  let ctx := mkCtx E p context_len stream_interval
  match genLoopAux ctx p.max_new_tokens 0 (initSt K ctx.input_ids) with
  | (evs, Except.error e) => { events := evs, err := some e, final := none }
  | (evs, Except.ok st) =>
    match st.iLast, st.outputText, st.stopped with
    | some i, some output, some stopped =>
      { events := evs ++
          [{ text := output,
             usage := { prompt_tokens := ctx.input_echo_len, completion_tokens := i,
                        total_tokens := ctx.input_echo_len + i },
             finish_reason :=
               if i = p.max_new_tokens - 1 then some FinishReason.length
               else if stopped then some FinishReason.stop
               else none }],
        err := none, final := some st }
    | _, _, _ => { events := evs, err := some PyErr.nameError, final := some st }

/-- The generator's observable behaviour: yielded events plus the exception
(if any) that escaped it. -/
def generate_stream {K : Type} (E : Externals K) (p : Params)
    (context_len stream_interval : Nat) : List Event × Option PyErr :=
  ((generate_stream_run E p context_len stream_interval).events,
   (generate_stream_run E p context_len stream_interval).err)

/-- One event built by `chatglm_generate_stream`'s yield loop (lines 88-104):
`output = query + " " + response` when echoing, `completion_tokens` is the
zero-based enumeration index. -/
def mkChatglmEvent (query : Text) (echo : Bool) (input_echo_len : Nat) (i : Nat)
    (response : Text) : Event :=
  { text := if echo then query ++ (" ".data ++ response) else response,
    usage := { prompt_tokens := input_echo_len, completion_tokens := i,
               total_tokens := input_echo_len + i },
    finish_reason := none }

/-- The enumerated yield loop of lines 88-104. -/
def chatglmEvents (query : Text) (echo : Bool) (input_echo_len : Nat) :
    Nat → List Text → List Event
  | _, [] => []
  | i, r :: rest =>
    mkChatglmEvent query echo input_echo_len i r ::
      chatglmEvents query echo input_echo_len (i + 1) rest

/-- Lines 50-117 of `chatglm_generate_stream`, with the external
`model.stream_chat` generator abstracted as the list of responses it yields:
forward every response with `finish_reason = None`, then re-emit the last
one with `finish_reason = "stop"` unconditionally (the TODO at line 106
notes that a length stop is never reported). An empty chat stream leaves
`output` and `i` unbound, a `NameError` at line 109. -/
def chatglm_generate_stream (query : Text) (echo : Bool) (input_echo_len : Nat)
    (stream : List Text) : List Event × Option PyErr :=
  let evs := chatglmEvents query echo input_echo_len 0 stream
  match stream.getLast? with
  | Option.none => (evs, some PyErr.nameError)
  | some lastResp =>
    (evs ++
      [{ text := if echo then query ++ (" ".data ++ lastResp) else lastResp,
         usage := { prompt_tokens := input_echo_len,
                    completion_tokens := stream.length - 1,
                    total_tokens := input_echo_len + (stream.length - 1) },
         finish_reason := some FinishReason.stop }], none)

/-- Line 15: the advisory message prepended to every error response. -/
def server_error_msg : Text :=
  "**NETWORK ERROR DUE TO HIGH TRAFFIC. PLEASE REGENERATE OR REFRESH THIS PAGE.**".data

/-- Modelled from the spec: `constants.ErrorCode` is imported at line 13 but
`constants.py` is not among the sources. The spec only requires a
resource-exhaustion code distinct from the generic internal-error code, both
distinct from the success code 0. -/
def ErrorCode.CUDA_OUT_OF_MEMORY : Nat := 50002

/-- Modelled from the spec: the generic computation-error code, distinct from
the resource-exhaustion code and from 0. -/
def ErrorCode.INTERNAL_ERROR : Nat := 50001

/-- The code attached by the facade's `except` clauses (lines 370-382). -/
def errorCodeOf : PyErr → Nat
  | PyErr.oom => ErrorCode.CUDA_OUT_OF_MEMORY
  | _ => ErrorCode.INTERNAL_ERROR

/-- One dictionary forwarded by `generate_stream_gate`: a success event keeps
the inner usage/finish_reason (both keys are always present on inner
events), an error event has neither. -/
structure GateEvent where
  text : Text
  error_code : Nat
  usage : Option Usage
  finish_reason : Option (Option FinishReason)
deriving DecidableEq, Repr

/-- Lines 358-368: wrap a successfully yielded event with `error_code: 0`. -/
def toGateEvent (ev : Event) : GateEvent :=
  { text := ev.text, error_code := 0, usage := some ev.usage,
    finish_reason := some ev.finish_reason }

/-- Lines 371-382: the single error-bearing response, carrying the advisory
message plus the stringified exception (`emsg`). -/
def errEvent (e : PyErr) (emsg : PyErr → Text) : GateEvent :=
  { text := server_error_msg ++ "\n\n(".data ++ emsg e ++ ")".data,
    error_code := errorCodeOf e, usage := none, finish_reason := none }

/-- Lines 349-382: the facade's streaming gate, over the inner generator's
outcome. Every yielded event is forwarded with code 0; an
`OutOfMemoryError` / `ValueError` / `RuntimeError` that escapes the loop is
converted into exactly one trailing error event; any other exception (such
as the `NameError` of a zero-token budget) matches neither `except` clause
and propagates out of the gate uncaught. -/
def generate_stream_gate (inner : List Event × Option PyErr) (emsg : PyErr → Text) :
    List GateEvent × Option PyErr :=
  match inner.2 with
  | Option.none => (inner.1.map toGateEvent, none)
  | some PyErr.oom => (inner.1.map toGateEvent ++ [errEvent PyErr.oom emsg], none)
  | some PyErr.valueError =>
    (inner.1.map toGateEvent ++ [errEvent PyErr.valueError emsg], none)
  | some PyErr.runtimeError =>
    (inner.1.map toGateEvent ++ [errEvent PyErr.runtimeError emsg], none)
  | some PyErr.nameError => (inner.1.map toGateEvent, some PyErr.nameError)

/-- Lines 345-347 (and 133-134): the caller-visible mutation of `params` by
one `generate_stream_gate` call — a list prompt is overwritten with the
rendered template (`render` stands for `self.generate_prompt`), and the
inner loop appends `eos` to a caller-supplied non-empty `stop_token_ids`. -/
def gate_params_after (render : List Message → Text) (p : Params) (eos : Token) :
    Params :=
  let p1 := match p.prompt with
    | PromptVal.msgs m => { p with prompt := PromptVal.str (render m) }
    | PromptVal.str _ => p
  generate_stream_params_after p1 eos

/-- A minimal concrete cache-free model: one-token prompt, a singleton score
vector, eos id 0 — greedy selection immediately produces the stop token. -/
def E0 : Externals Unit :=
  { encode := fun _ => [7], decode := fun _ => [], eos_token_id := 0,
    score := fun _ _ => ([1], ()), applyProcessors := fun _ _ l => l,
    softmax := fun l => l, multinomial := fun _ _ => 0, is_encoder_decoder := false }

/-- A greedy one-token request with no explicit stop configuration. -/
def p0 : Params :=
  { prompt := PromptVal.str "a".data, temperature := 0, repetition_penalty := 1,
    top_p := 1, top_k := -1, max_new_tokens := 1, stop := StopSpec.none,
    echo := true, stop_token_ids := none }

/-- A concrete model whose greedy choice (token 0) is not a stop token
(eos is 9). -/
def E1 : Externals Unit :=
  { encode := fun _ => [7], decode := fun _ => [], eos_token_id := 9,
    score := fun _ _ => ([3, 1], ()), applyProcessors := fun _ _ l => l,
    softmax := fun l => l, multinomial := fun _ _ => 0, is_encoder_decoder := false }

/-- The spec's example request: greedy, `max_new_tokens = 1`, no stop met. -/
def p1 : Params :=
  { prompt := PromptVal.str "H".data, temperature := 0, repetition_penalty := 1,
    top_p := 1, top_k := -1, max_new_tokens := 1, stop := StopSpec.none,
    echo := true, stop_token_ids := none }

/-- The zero-budget request of the `max_new_tokens = 0` edge case. -/
def p6 : Params := { p1 with max_new_tokens := 0 }

/-- A request whose caller supplies a non-empty `stop_token_ids` list. -/
def p9 : Params := { p1 with stop_token_ids := some [5] }

lemma genStep_ok_fields {K : Type} {ctx : Ctx K} {i : Nat} {st st' : LoopSt K}
    {evOpt : Option Event} (h : genStep ctx i st = Except.ok (st', evOpt)) :
    st'.iLast = some i ∧
    st'.lastToken = stepToken ctx i st ∧
    st'.output_ids = st.output_ids ++ [stepToken ctx i st] ∧
    st'.scorerInputs = st.scorerInputs ++ [stepInput ctx i st] ∧
    ∃ b, st'.stopped = some b := by
  unfold genStep at h
  split at h
  · split at h
    · exact absurd h (by simp)
    · injection h with h1
      injection h1 with hA hB
      subst hA
      exact ⟨rfl, rfl, rfl, rfl, _, rfl⟩
  · injection h with h1
    injection h1 with hA hB
    subst hA
    exact ⟨rfl, rfl, rfl, rfl, _, rfl⟩

lemma genStep_ok_event {K : Type} {ctx : Ctx K} {i : Nat} {st st' : LoopSt K}
    {ev : Event} (h : genStep ctx i st = Except.ok (st', some ev)) :
    ev.finish_reason = none ∧
    ev.usage = { prompt_tokens := ctx.input_echo_len, completion_tokens := i,
                 total_tokens := ctx.input_echo_len + i } ∧
    st'.outputText = some ev.text := by
  unfold genStep at h
  split at h
  · split at h
    · exact absurd h (by simp)
    · injection h with h1
      injection h1 with hA hB
      subst hA
      injection hB with hB'
      subst hB'
      exact ⟨rfl, rfl, rfl⟩
  · injection h with h1
    injection h1 with hA hB
    exact absurd hB (by simp)

lemma genStep_ok_none {K : Type} {ctx : Ctx K} {i : Nat} {st st' : LoopSt K}
    (h : genStep ctx i st = Except.ok (st', none)) :
    st'.stopped = some false ∧ st'.outputText = st.outputText := by
  unfold genStep at h
  split at h
  case isTrue hc =>
    split at h
    · exact absurd h (by simp)
    · injection h with h1
      injection h1 with hA hB
      exact absurd hB (by simp)
  case isFalse hc =>
    injection h with h1
    injection h1 with hA hB
    subst hA
    refine ⟨?_, rfl⟩
    have hst : stepStopTok ctx i st = false := by
      by_contra hne
      have : stepStopTok ctx i st = true := by
        cases hx : stepStopTok ctx i st
        · exact absurd hx hne
        · rfl
      exact hc (by simp [emitCond, this])
    simp [hst]

lemma genStep_stopTok_true {K : Type} {ctx : Ctx K} {i : Nat} {st st' : LoopSt K}
    {evOpt : Option Event} (htok : stepStopTok ctx i st = true)
    (h : genStep ctx i st = Except.ok (st', evOpt)) : st'.stopped = some true := by
  unfold genStep at h
  split at h
  · split at h
    · exact absurd h (by simp)
    · injection h with h1
      injection h1 with hA hB
      subst hA
      simp [htok]
  case isFalse hc => exact absurd (by simp [emitCond, htok]) hc

lemma genStep_stopped_some_ev {K : Type} {ctx : Ctx K} {i : Nat} {st st' : LoopSt K}
    {evOpt : Option Event} (h : genStep ctx i st = Except.ok (st', evOpt))
    (hs : st'.stopped = some true) :
    ∃ ev, evOpt = some ev ∧ st'.outputText = some ev.text := by
  cases evOpt with
  | none =>
    have := (genStep_ok_none h).1
    rw [this] at hs
    exact absurd hs (by simp)
  | some ev => exact ⟨ev, rfl, (genStep_ok_event h).2.2⟩

lemma genStep_last_emits {K : Type} {ctx : Ctx K} {i : Nat} {st st' : LoopSt K}
    {evOpt : Option Event} (hi : i = ctx.max_new_tokens - 1)
    (h : genStep ctx i st = Except.ok (st', evOpt)) :
    ∃ ev, evOpt = some ev ∧ st'.outputText = some ev.text := by
  cases evOpt with
  | none =>
    exfalso
    unfold genStep at h
    split at h
    · split at h
      · exact absurd h (by simp)
      · injection h with h1
        injection h1 with hA hB
        exact absurd hB (by simp)
    case isFalse hc => exact hc (by simp [emitCond, hi])
  | some ev => exact ⟨ev, rfl, (genStep_ok_event h).2.2⟩

lemma genLoopAux_events_spec {K : Type} (ctx : Ctx K) :
    ∀ fuel i st, ∀ e ∈ (genLoopAux ctx fuel i st).1,
      e.finish_reason = none ∧ e.usage.prompt_tokens = ctx.input_echo_len ∧
      e.usage.total_tokens = e.usage.prompt_tokens + e.usage.completion_tokens := by
  intro fuel
  induction fuel with
  | zero => intro i st e he; simp [genLoopAux] at he
  | succ fuel ih =>
    intro i st e he
    unfold genLoopAux at he
    split at he
    · simp at he
    next st1 evOpt heq =>
      split at he
      · cases evOpt with
        | none => simp at he
        | some ev =>
          simp at he
          subst he
          obtain ⟨h1, h2, _⟩ := genStep_ok_event heq
          refine ⟨h1, ?_, ?_⟩ <;> rw [h2]
      · rcases List.mem_append.mp he with hin | hin
        · cases evOpt with
          | none => simp at hin
          | some ev =>
            simp at hin
            subst hin
            obtain ⟨h1, h2, _⟩ := genStep_ok_event heq
            refine ⟨h1, ?_, ?_⟩ <;> rw [h2]
        · exact ih (i + 1) st1 e hin

lemma genLoopAux_ok_spec {K : Type} (ctx : Ctx K) :
    ∀ fuel i st evs stFin, i + fuel = ctx.max_new_tokens →
      genLoopAux ctx fuel i st = (evs, Except.ok stFin) →
      (fuel = 0 ∧ stFin = st) ∨
      (∃ i' b out, stFin.iLast = some i' ∧ stFin.stopped = some b ∧
        stFin.outputText = some out ∧
        i ≤ i' ∧ i' < i + fuel ∧
        stFin.output_ids.length = st.output_ids.length + (i' - i) + 1 ∧
        (b = true ∨ i' = i + fuel - 1)) := by
  intro fuel
  induction fuel with
  | zero =>
    intro i st evs stFin hsum h
    left
    unfold genLoopAux at h
    injection h with h1 h2
    injection h2 with h2
    exact ⟨rfl, h2.symm⟩
  | succ fuel ih =>
    intro i st evs stFin hsum h
    right
    unfold genLoopAux at h
    split at h
    · injection h with h1 h2
      exact absurd h2 (by simp)
    next st1 evOpt heq =>
      obtain ⟨hiL, _, hoid, _, b1, hb1⟩ := genStep_ok_fields heq
      split at h
      next hstop =>
        injection h with h1 h2
        injection h2 with h2
        subst h2
        obtain ⟨ev, hev, hout⟩ := genStep_stopped_some_ev heq hstop
        refine ⟨i, true, ev.text, hiL, hstop, hout, le_refl i, by omega, ?_, Or.inl rfl⟩
        rw [hoid]
        simp only [List.length_append, List.length_cons, List.length_nil]
        omega
      next hstop =>
        injection h with h1 h2
        have hrec : genLoopAux ctx fuel (i + 1) st1 =
            ((genLoopAux ctx fuel (i + 1) st1).1, Except.ok stFin) := by
          rw [← h2]
        have hih := ih (i + 1) st1 _ stFin (by omega) hrec
        cases hih with
        | inl hl =>
          obtain ⟨hf0, hst⟩ := hl
          subst hst
          have hi : i = ctx.max_new_tokens - 1 := by omega
          obtain ⟨ev, hev, hout⟩ := genStep_last_emits hi heq
          refine ⟨i, b1, ev.text, hiL, hb1, hout, le_refl i, by omega, ?_, Or.inr (by omega)⟩
          rw [hoid]
          simp only [List.length_append, List.length_cons, List.length_nil]
          omega
        | inr hr =>
          obtain ⟨i', b, out, h1', h2', h3', h4', h5', h6', h7'⟩ := hr
          refine ⟨i', b, out, h1', h2', h3', by omega, by omega, ?_, ?_⟩
          · rw [h6', hoid]
            simp only [List.length_append, List.length_cons, List.length_nil]
            omega
          · cases h7' with
            | inl hb => exact Or.inl hb
            | inr hieq => exact Or.inr (by omega)

lemma chatglmEvents_spec (query : Text) (echo : Bool) (iel : Nat) :
    ∀ stream i0, ∀ e ∈ chatglmEvents query echo iel i0 stream,
      e.finish_reason = none ∧ e.usage.prompt_tokens = iel ∧
      e.usage.total_tokens = e.usage.prompt_tokens + e.usage.completion_tokens := by
  intro stream
  induction stream with
  | nil => intro i0 e he; simp [chatglmEvents] at he
  | cons r rest ih =>
    intro i0 e he
    rw [show chatglmEvents query echo iel i0 (r :: rest) =
          mkChatglmEvent query echo iel i0 r ::
            chatglmEvents query echo iel (i0 + 1) rest from rfl] at he
    rcases List.mem_cons.mp he with he | he
    · subst he; exact ⟨rfl, rfl, rfl⟩
    · exact ih (i0 + 1) e he

lemma chatglm_events_spec (query : Text) (echo : Bool) (iel : Nat) (stream : List Text) :
    ∀ e ∈ (chatglm_generate_stream query echo iel stream).1,
      e.usage.prompt_tokens = iel ∧
      e.usage.total_tokens = e.usage.prompt_tokens + e.usage.completion_tokens := by
  intro e he
  unfold chatglm_generate_stream at he
  split at he
  · exact ⟨(chatglmEvents_spec query echo iel stream 0 e he).2.1,
      (chatglmEvents_spec query echo iel stream 0 e he).2.2⟩
  · rcases List.mem_append.mp he with hin | hin
    · exact ⟨(chatglmEvents_spec query echo iel stream 0 e hin).2.1,
        (chatglmEvents_spec query echo iel stream 0 e hin).2.2⟩
    · simp at hin
      subst hin
      exact ⟨rfl, rfl⟩

lemma generate_stream_run_events_spec {K : Type} (E : Externals K) (p : Params)
    (cl si : Nat) :
    ∀ e ∈ (generate_stream_run E p cl si).events,
      e.usage.prompt_tokens = (mkCtx E p cl si).input_echo_len ∧
      e.usage.total_tokens = e.usage.prompt_tokens + e.usage.completion_tokens := by
  intro e he
  unfold generate_stream_run at he
  dsimp only at he
  split at he
  next evs err heq =>
    have := genLoopAux_events_spec (mkCtx E p cl si) p.max_new_tokens 0
      (initSt K (mkCtx E p cl si).input_ids) e (by rw [heq]; exact he)
    exact ⟨this.2.1, this.2.2⟩
  next evs st heq =>
    split at he
    next i output stopped hiL hout hstop =>
      rcases List.mem_append.mp he with hin | hin
      · have := genLoopAux_events_spec (mkCtx E p cl si) p.max_new_tokens 0
          (initSt K (mkCtx E p cl si).input_ids) e (by rw [heq]; exact hin)
        exact ⟨this.2.1, this.2.2⟩
      · simp at hin
        subst hin
        exact ⟨rfl, rfl⟩
    next =>
      have := genLoopAux_events_spec (mkCtx E p cl si) p.max_new_tokens 0
        (initSt K (mkCtx E p cl si).input_ids) e (by rw [heq]; exact he)
      exact ⟨this.2.1, this.2.2⟩

/-- C2: on every event emitted by either decode loop, streaming or terminal,
`prompt_tokens + completion_tokens = total_tokens` (both loops always set
`total_tokens := input_echo_len + i`, lines 96-104, 108-117, 249-257,
270-278). -/
theorem usage_counters_add_up : ∀ (K : Type) (E : Externals K) (p : Params)
    (cl si : Nat) (query : Text) (echo : Bool) (iel : Nat) (stream : List Text),
    (((generate_stream_run E p cl si).events).all fun e =>
        e.usage.prompt_tokens + e.usage.completion_tokens == e.usage.total_tokens) = true ∧
    (((chatglm_generate_stream query echo iel stream).1).all fun e =>
        e.usage.prompt_tokens + e.usage.completion_tokens == e.usage.total_tokens) = true := by
  intro K E p cl si query echo iel stream
  constructor
  · rw [List.all_eq_true]
    intro e he
    have := (generate_stream_run_events_spec E p cl si e he).2
    simpa [Nat.beq_eq_true_eq] using this.symm
  · rw [List.all_eq_true]
    intro e he
    have := (chatglm_events_spec query echo iel stream e he).2
    simpa [Nat.beq_eq_true_eq] using this.symm

lemma all_dropLast {α : Type} (p : α → Bool) (l : List α) (h : l.all p = true) :
    l.dropLast.all p = true := by
  rw [List.all_eq_true] at h ⊢
  intro x hx
  exact h x ((List.dropLast_sublist l).subset hx)

lemma generate_stream_run_dropLast_none {K : Type} (E : Externals K) (p : Params)
    (cl si : Nat) :
    ((generate_stream_run E p cl si).events.dropLast.all
      fun e => e.finish_reason.isNone) = true := by
  have hloop : ∀ e ∈ (genLoopAux (mkCtx E p cl si) p.max_new_tokens 0
      (initSt K (mkCtx E p cl si).input_ids)).1, e.finish_reason = none :=
    fun e he => (genLoopAux_events_spec _ _ _ _ e he).1
  unfold generate_stream_run
  dsimp only
  split
  next evs err heq =>
    apply all_dropLast
    rw [List.all_eq_true]
    intro e he
    rw [hloop e (by rw [heq]; exact he)]
    rfl
  next evs st heq =>
    split
    next i output stopped =>
      dsimp only
      rw [List.dropLast_concat, List.all_eq_true]
      intro e he
      rw [hloop e (by rw [heq]; exact he)]
      rfl
    next =>
      apply all_dropLast
      rw [List.all_eq_true]
      intro e he
      rw [hloop e (by rw [heq]; exact he)]
      rfl

lemma chatglm_dropLast_none (query : Text) (echo : Bool) (iel : Nat)
    (stream : List Text) :
    ((chatglm_generate_stream query echo iel stream).1.dropLast.all
      fun e => e.finish_reason.isNone) = true := by
  unfold chatglm_generate_stream
  dsimp only
  split
  · apply all_dropLast
    rw [List.all_eq_true]
    intro e he
    rw [(chatglmEvents_spec query echo iel stream 0 e he).1]
    rfl
  · rw [List.dropLast_concat, List.all_eq_true]
    intro e he
    rw [(chatglmEvents_spec query echo iel stream 0 e he).1]
    rfl

lemma chatglm_terminal_stop (query : Text) (echo : Bool) (iel : Nat)
    (stream : List Text) (h : stream ≠ []) :
    ∃ ev, (chatglm_generate_stream query echo iel stream).1.getLast? = some ev ∧
      ev.finish_reason = some FinishReason.stop := by
  unfold chatglm_generate_stream
  dsimp only
  split
  next heq => exact absurd (List.getLast?_eq_none_iff.mp heq) h
  next lastResp heq =>
    exact ⟨_, List.getLast?_concat _, rfl⟩

lemma generate_stream_run_terminal {K : Type} (E : Externals K) (p : Params)
    (cl si : Nat) (hmnt : 1 ≤ p.max_new_tokens)
    (herr : (generate_stream_run E p cl si).err = none) :
    ∃ st i b, (generate_stream_run E p cl si).final = some st ∧
      st.iLast = some i ∧ st.stopped = some b ∧ (b = true ∨ i = p.max_new_tokens - 1) ∧
      ∃ ev, (generate_stream_run E p cl si).events.getLast? = some ev ∧
        ev.finish_reason = some (if i = p.max_new_tokens - 1 then FinishReason.length
                                 else FinishReason.stop) := by
  rcases hloop : genLoopAux (mkCtx E p cl si) p.max_new_tokens 0
      (initSt K (mkCtx E p cl si).input_ids) with ⟨evs, r⟩
  cases r with
  | error e =>
    exfalso
    have : (generate_stream_run E p cl si).err = some e := by
      unfold generate_stream_run
      dsimp only
      rw [hloop]
    rw [this] at herr
    exact Option.noConfusion herr
  | ok st =>
    have hmaster := genLoopAux_ok_spec (mkCtx E p cl si) p.max_new_tokens 0
      (initSt K (mkCtx E p cl si).input_ids) evs st
      (by show 0 + p.max_new_tokens = p.max_new_tokens; omega) hloop
    rcases hmaster with ⟨hf0, _⟩ | ⟨i, b, out, hiL, hstop, hout, _, hlt, _, hdisj⟩
    · omega
    · have hrun : generate_stream_run E p cl si =
          { events := evs ++
              [{ text := out,
                 usage := { prompt_tokens := (mkCtx E p cl si).input_echo_len,
                            completion_tokens := i,
                            total_tokens := (mkCtx E p cl si).input_echo_len + i },
                 finish_reason :=
                   if i = p.max_new_tokens - 1 then some FinishReason.length
                   else if b then some FinishReason.stop
                   else none }],
            err := none, final := some st } := by
        unfold generate_stream_run
        dsimp only
        rw [hloop]
        dsimp only
        rw [hiL, hout, hstop]
      refine ⟨st, i, b, by rw [hrun], hiL, hstop, ?_, ?_⟩
      · rcases hdisj with hb | hieq
        · exact Or.inl hb
        · exact Or.inr (by omega)
      · refine ⟨_, by rw [hrun]; exact List.getLast?_concat _, ?_⟩
        by_cases hi : i = p.max_new_tokens - 1
        · simp [hi]
        · have hb : b = true := by
            rcases hdisj with hb | hieq
            · exact hb
            · exact absurd (by omega : i = p.max_new_tokens - 1) hi
          simp [hi, hb]

/-- C1 (amended): `finish_reason` is `None` on every non-terminal event of
both loops. In `generate_stream` the terminal event (present whenever the
generator finishes without an exception and `max_new_tokens ≥ 1`) carries
`"length"` whenever the last executed step index equals
`max_new_tokens - 1` — even when that step stopped via a stop token or stop
string — and `"stop"` exactly when the loop stopped before the final step;
`chatglm_generate_stream`'s terminal event always carries `"stop"`. -/
theorem finish_reason_discipline : ∀ (K : Type) (E : Externals K) (p : Params)
    (cl si : Nat) (query : Text) (echo : Bool) (iel : Nat) (stream : List Text),
    ((generate_stream_run E p cl si).events.dropLast.all
        fun e => e.finish_reason.isNone) = true ∧
    ((chatglm_generate_stream query echo iel stream).1.dropLast.all
        fun e => e.finish_reason.isNone) = true ∧
    (stream ≠ [] →
      ∃ ev, (chatglm_generate_stream query echo iel stream).1.getLast? = some ev ∧
        ev.finish_reason = some FinishReason.stop) ∧
    (1 ≤ p.max_new_tokens → (generate_stream_run E p cl si).err = none →
      ∃ st i b, (generate_stream_run E p cl si).final = some st ∧
        st.iLast = some i ∧ st.stopped = some b ∧
        (b = true ∨ i = p.max_new_tokens - 1) ∧
        ∃ ev, (generate_stream_run E p cl si).events.getLast? = some ev ∧
          ev.finish_reason = some (if i = p.max_new_tokens - 1 then FinishReason.length
                                   else FinishReason.stop)) := by
  intro K E p cl si query echo iel stream
  exact ⟨generate_stream_run_dropLast_none E p cl si,
    chatglm_dropLast_none query echo iel stream,
    chatglm_terminal_stop query echo iel stream,
    generate_stream_run_terminal E p cl si⟩

/-- Witness for `finish_reason_discipline` at concrete inputs (the `E0`/`p0`
run terminates without an exception and the chat stream is non-empty). -/
theorem finish_reason_discipline_witness :
    ((generate_stream_run E0 p0 2048 2).events.dropLast.all
        fun e => e.finish_reason.isNone) = true ∧
    ((chatglm_generate_stream "q".data true 3 ["r".data]).1.dropLast.all
        fun e => e.finish_reason.isNone) = true ∧
    (∃ ev, (chatglm_generate_stream "q".data true 3 ["r".data]).1.getLast? = some ev ∧
        ev.finish_reason = some FinishReason.stop) ∧
    (∃ st i b, (generate_stream_run E0 p0 2048 2).final = some st ∧
        st.iLast = some i ∧ st.stopped = some b ∧
        (b = true ∨ i = p0.max_new_tokens - 1) ∧
        ∃ ev, (generate_stream_run E0 p0 2048 2).events.getLast? = some ev ∧
          ev.finish_reason = some (if i = p0.max_new_tokens - 1 then FinishReason.length
                                   else FinishReason.stop)) := by
  have h := finish_reason_discipline Unit E0 p0 2048 2 "q".data true 3 ["r".data]
  exact ⟨h.1, h.2.1, h.2.2.1 (by decide), h.2.2.2 (by decide) (by decide)⟩

/-- C1 counterexample: in the `E0`/`p0` run the greedy token of step 0 is the
eos stop token, so the loop stops by the token-level check
(`stopped = true`), yet because step 0 is also the last budgeted step
(`max_new_tokens = 1`, so `i == max_new_tokens - 1` at line 263 wins over
`elif stopped`) the terminal event carries `finish_reason = "length"` and
not the `"stop"` the claim requires for a stop-token stop. -/
theorem finish_reason_stop_cex :
    (generate_stream_run E0 p0 2048 2).final.map (fun st => st.stopped) =
      some (some true) ∧
    ((generate_stream_run E0 p0 2048 2).events.getLast?.map
        fun ev => ev.finish_reason) = some (some FinishReason.length) ∧
    ((generate_stream_run E0 p0 2048 2).events.getLast?.map
        fun ev => ev.finish_reason) ≠ some (some FinishReason.stop) := by
  exact ⟨by decide, by decide, by decide⟩

/-- C4: when the token produced at step `i` is in `stop_token_ids`, the loop
terminates within that same step — `genLoopAux` performs that one step and
never recurses, so the model is not invoked again (exactly one scorer input
is recorded for the step); and the effective stop set of lines 133-134
always contains the tokenizer's eos id. -/
theorem stop_token_short_circuit : ∀ (K : Type) (ctx : Ctx K) (fuel i : Nat)
    (st : LoopSt K), stepStopTok ctx i st = true →
    (genLoopAux ctx (fuel + 1) i st =
      match genStep ctx i st with
      | Except.error e => ([], Except.error e)
      | Except.ok (st', evOpt) => (evOpt.toList, Except.ok st')) ∧
    (∀ st' evOpt, genStep ctx i st = Except.ok (st', evOpt) →
      st'.scorerInputs = st.scorerInputs ++ [stepInput ctx i st] ∧
      st'.stopped = some true) ∧
    (∀ ids eos, eos ∈ effectiveStopIds ids eos) := by
  intro K ctx fuel i st htok
  refine ⟨?_, ?_, ?_⟩
  · unfold genLoopAux
    cases hg : genStep ctx i st with
    | error e => rfl
    | ok pr =>
      obtain ⟨st', evOpt⟩ := pr
      dsimp only
      rw [if_pos (genStep_stopTok_true htok hg)]
  · intro st' evOpt hg
    exact ⟨(genStep_ok_fields hg).2.2.2.1, genStep_stopTok_true htok hg⟩
  · intro ids eos
    unfold effectiveStopIds
    exact List.mem_append.mpr (Or.inr (List.mem_singleton.mpr rfl))

/-- Witness for `stop_token_short_circuit`: in the `E0`/`p0` setup the step-0
token is the eos stop token. -/
theorem stop_token_short_circuit_witness :
    stepStopTok (mkCtx E0 p0 2048 2) 0 (initSt Unit (mkCtx E0 p0 2048 2).input_ids) = true ∧
    (genLoopAux (mkCtx E0 p0 2048 2) 1 0 (initSt Unit (mkCtx E0 p0 2048 2).input_ids) =
      match genStep (mkCtx E0 p0 2048 2) 0 (initSt Unit (mkCtx E0 p0 2048 2).input_ids) with
      | Except.error e => ([], Except.error e)
      | Except.ok (st', evOpt) => (evOpt.toList, Except.ok st')) ∧
    (0 : Token) ∈ effectiveStopIds none 0 := by
  refine ⟨by decide, ?_, ?_⟩
  · exact (stop_token_short_circuit Unit (mkCtx E0 p0 2048 2) 0 0
      (initSt Unit (mkCtx E0 p0 2048 2).input_ids) (by decide)).1
  · exact (stop_token_short_circuit Unit (mkCtx E0 p0 2048 2) 0 0
      (initSt Unit (mkCtx E0 p0 2048 2).input_ids) (by decide)).2.2 none 0

/-- C6: evaluating `generate_stream` at a request with `max_new_tokens = 0`:
the loop body never runs — no scorer invocation and no events — and the
terminal-event construction of lines 262-278 reads the unbound loop
variables, raising `NameError` instead of emitting the `Length` terminal
event the claim describes. -/
theorem zero_budget_raises_name_error :
    p6.max_new_tokens = 0 ∧
    generate_stream E1 p6 2048 2 = ([], some PyErr.nameError) ∧
    (generate_stream_run E1 p6 2048 2).final.map (fun st => st.scorerInputs) =
      some [] := by
  exact ⟨by decide, by decide, by decide⟩

lemma generate_stream_run_buffer_len {K : Type} (E : Externals K) (p : Params)
    (cl si : Nat) (st : LoopSt K)
    (hfin : (generate_stream_run E p cl si).final = some st) {i : Nat}
    (hiL : st.iLast = some i) :
    st.output_ids.length = (mkCtx E p cl si).input_echo_len + i + 1 := by
  rcases hloop : genLoopAux (mkCtx E p cl si) p.max_new_tokens 0
      (initSt K (mkCtx E p cl si).input_ids) with ⟨evs, r⟩
  cases r with
  | error e =>
    exfalso
    have : (generate_stream_run E p cl si).final = none := by
      unfold generate_stream_run
      dsimp only
      rw [hloop]
    rw [this] at hfin
    exact Option.noConfusion hfin
  | ok st2 =>
    have hsome : (generate_stream_run E p cl si).final = some st2 := by
      unfold generate_stream_run
      dsimp only
      rw [hloop]
      dsimp only
      split
      · rfl
      · rfl
    rw [hsome] at hfin
    injection hfin with hst2
    rw [← hst2] at hiL ⊢
    have hmaster := genLoopAux_ok_spec (mkCtx E p cl si) p.max_new_tokens 0
      (initSt K (mkCtx E p cl si).input_ids) evs st2
      (by show 0 + p.max_new_tokens = p.max_new_tokens; omega) hloop
    rcases hmaster with ⟨_, hst⟩ | ⟨i', b, out, hiL', _, _, _, _, hlen, _⟩
    · rw [hst] at hiL
      exact absurd hiL (by simp [initSt])
    · rw [hiL] at hiL'
      injection hiL' with hi'
      subst hi'
      have hieq : (mkCtx E p cl si).input_echo_len =
          (initSt K (mkCtx E p cl si).input_ids).output_ids.length := rfl
      rw [hieq]
      omega

/-- C8: `completion_tokens` is the zero-based step index, not the count of
generated tokens — every emitted event of step `i` carries
`completion_tokens = i` while the buffer has just grown to hold `i + 1`
generated tokens; and the spec's pinned example (greedy, one-token prompt,
`max_new_tokens = 1`, no stop) produces exactly one generated token,
`finish_reason = "length"`, and `completion_tokens = 0`. -/
theorem completion_tokens_zero_based :
    (∀ (K : Type) (ctx : Ctx K) (i : Nat) (st st' : LoopSt K) (ev : Event),
      genStep ctx i st = Except.ok (st', some ev) →
      ev.usage.completion_tokens = i ∧
      st'.output_ids.length = st.output_ids.length + 1) ∧
    (∀ (K : Type) (E : Externals K) (p : Params) (cl si : Nat) (st : LoopSt K) (i : Nat),
      (generate_stream_run E p cl si).final = some st → st.iLast = some i →
      st.output_ids.length = (mkCtx E p cl si).input_echo_len + i + 1) ∧
    ((generate_stream_run E1 p1 2048 2).events.length = 2 ∧
     (generate_stream_run E1 p1 2048 2).events.getLast?.map
       (fun ev => (ev.usage.completion_tokens, ev.finish_reason)) =
         some (0, some FinishReason.length) ∧
     (generate_stream_run E1 p1 2048 2).final.map (fun st => st.output_ids.length) =
       some 2 ∧
     (mkCtx E1 p1 2048 2).input_echo_len = 1) := by
  refine ⟨?_, ?_, by decide, by decide, by decide, by decide⟩
  · intro K ctx i st st' ev hg
    refine ⟨?_, ?_⟩
    · rw [(genStep_ok_event hg).2.1]
    · rw [(genStep_ok_fields hg).2.2.1]
      simp only [List.length_append, List.length_cons, List.length_nil]
  · intro K E p cl si st i hfin hiL
    exact generate_stream_run_buffer_len E p cl si st hfin hiL

/-- Witness for `completion_tokens_zero_based`: the step-0 `genStep` of the
`E1`/`p1` run emits the event with `completion_tokens = 0` after growing the
buffer by one, and the final state of that run satisfies the buffer-length
accounting. -/
theorem completion_tokens_zero_based_witness :
    (genStep (mkCtx E1 p1 2048 2) 0 (initSt Unit (mkCtx E1 p1 2048 2).input_ids) =
      Except.ok
        ({ past := some (), lastToken := 0, output_ids := [7, 0],
           outputText := some [], stopped := some false, iLast := some 0,
           scorerInputs := [[7]] },
         some { text := [],
                usage := { prompt_tokens := 1, completion_tokens := 0, total_tokens := 1 },
                finish_reason := none })) ∧
    ({ text := ([] : Text),
       usage := { prompt_tokens := 1, completion_tokens := 0, total_tokens := 1 },
       finish_reason := (none : Option FinishReason) } : Event).usage.completion_tokens = 0 ∧
    ({ past := some (), lastToken := 0, output_ids := [7, 0],
       outputText := some ([] : Text), stopped := some false, iLast := some 0,
       scorerInputs := [[7]] } : LoopSt Unit).output_ids.length =
      (initSt Unit (mkCtx E1 p1 2048 2).input_ids).output_ids.length + 1 ∧
    ({ past := some (), lastToken := 0, output_ids := [7, 0],
       outputText := some ([] : Text), stopped := some false, iLast := some 0,
       scorerInputs := [[7]] } : LoopSt Unit).output_ids.length =
      (mkCtx E1 p1 2048 2).input_echo_len + 0 + 1 := by
  have h1 := completion_tokens_zero_based.1 Unit (mkCtx E1 p1 2048 2) 0
    (initSt Unit (mkCtx E1 p1 2048 2).input_ids)
    { past := some (), lastToken := 0, output_ids := [7, 0],
      outputText := some [], stopped := some false, iLast := some 0,
      scorerInputs := [[7]] }
    { text := [],
      usage := { prompt_tokens := 1, completion_tokens := 0, total_tokens := 1 },
      finish_reason := none }
    (by decide)
  have h2 := completion_tokens_zero_based.2.1 Unit E1 p1 2048 2
    { past := some (), lastToken := 0, output_ids := [7, 0],
      outputText := some [], stopped := some false, iLast := some 0,
      scorerInputs := [[7]] } 0 (by decide) (by decide)
  exact ⟨by decide, h1.1, h1.2, h2⟩

/-- C9 counterexample: a caller-supplied non-empty `stop_token_ids` list is
mutated in place by line 134 — after the call the caller's list has the eos
id appended — so the request parameters are not left unmodified. -/
theorem params_not_preserved_cex :
    generate_stream_params_after p9 2 ≠ p9 ∧
    (generate_stream_params_after p9 2).stop_token_ids = some [5, 2] ∧
    p9.stop_token_ids = some [5] := by
  exact ⟨by decide, by decide, by decide⟩

/-- C9 (amended): the only caller-visible state changes of the generation
entry points are (1) the gate overwriting a list-valued `prompt` with the
rendered template text (line 347) and (2) the loop appending the eos id to a
caller-supplied non-empty `stop_token_ids` list (line 134; an absent or
empty value is replaced by a fresh list, leaving the caller's state
untouched); every other request field is unchanged, and no state persists
between calls beyond the request itself. -/
theorem params_mutation_characterized : ∀ (p : Params) (eos : Token)
    (render : List Message → Text),
    (∀ t, p.prompt = PromptVal.str t → (gate_params_after render p eos).prompt =
      PromptVal.str t) ∧
    (∀ m, p.prompt = PromptVal.msgs m → (gate_params_after render p eos).prompt =
      PromptVal.str (render m)) ∧
    (∀ l, p.stop_token_ids = some l → l ≠ [] →
      (generate_stream_params_after p eos).stop_token_ids = some (l ++ [eos])) ∧
    (p.stop_token_ids = none →
      (generate_stream_params_after p eos).stop_token_ids = none) ∧
    (p.stop_token_ids = some [] →
      (generate_stream_params_after p eos).stop_token_ids = some []) ∧
    (generate_stream_params_after p eos).prompt = p.prompt ∧
    (generate_stream_params_after p eos).temperature = p.temperature ∧
    (generate_stream_params_after p eos).repetition_penalty = p.repetition_penalty ∧
    (generate_stream_params_after p eos).top_p = p.top_p ∧
    (generate_stream_params_after p eos).top_k = p.top_k ∧
    (generate_stream_params_after p eos).max_new_tokens = p.max_new_tokens ∧
    (generate_stream_params_after p eos).stop = p.stop ∧
    (generate_stream_params_after p eos).echo = p.echo := by
  intro p eos render
  refine ⟨?_, ?_, ?_, ?_, ?_, rfl, rfl, rfl, rfl, rfl, rfl, rfl, rfl⟩
  · intro t ht
    unfold gate_params_after
    rw [ht]
    dsimp only
    exact ht
  · intro m hm
    unfold gate_params_after
    rw [hm]
    dsimp only
    rfl
  · intro l hl hne
    unfold generate_stream_params_after
    rw [hl]
    simp [hne]
  · intro h
    unfold generate_stream_params_after
    rw [h]
  · intro h
    unfold generate_stream_params_after
    rw [h]
    rfl

/-- Witness for `params_mutation_characterized` at the `p9` request. -/
theorem params_mutation_characterized_witness :
    (gate_params_after (fun _ => []) p9 2).prompt = PromptVal.str "H".data ∧
    (generate_stream_params_after p9 2).stop_token_ids = some [5, 2] ∧
    (generate_stream_params_after p9 2).echo = p9.echo := by
  have h := params_mutation_characterized p9 2 (fun _ => [])
  exact ⟨h.1 "H".data (by decide), h.2.2.1 [5] (by decide) (by decide),
    h.2.2.2.2.2.2.2.2.2.2.2.2⟩

/-- C7 counterexample: the `NameError` raised inside the generator by a
zero-token budget escapes `generate_stream_gate` — it matches neither
`except` clause (lines 370, 377), so no error-bearing terminal response is
produced, refuting "any failure raised during decoding is caught ... and
converted into a single terminal response". -/
theorem gate_uncaught_failure_cex :
    (generate_stream E1 p6 2048 2).2 = some PyErr.nameError ∧
    generate_stream_gate (generate_stream E1 p6 2048 2) (fun _ => []) =
      ([], some PyErr.nameError) := by
  exact ⟨by decide, by decide⟩

/-- C7 (amended): the decode loop catches nothing; at the facade,
`OutOfMemoryError` is converted into a single trailing error event carrying
the resource-exhaustion code, `ValueError`/`RuntimeError` into one carrying
the distinct generic internal code — each error event carries the advisory
message, previously streamed events are forwarded unretracted with code 0 —
while an exception of any other type (such as the `NameError` of a
zero-token budget) propagates out of the gate uncaught, after the
already-yielded events. -/
theorem gate_error_translation : ∀ (evs : List Event) (emsg : PyErr → Text),
    generate_stream_gate (evs, none) emsg = (evs.map toGateEvent, none) ∧
    generate_stream_gate (evs, some PyErr.oom) emsg =
      (evs.map toGateEvent ++ [errEvent PyErr.oom emsg], none) ∧
    generate_stream_gate (evs, some PyErr.valueError) emsg =
      (evs.map toGateEvent ++ [errEvent PyErr.valueError emsg], none) ∧
    generate_stream_gate (evs, some PyErr.runtimeError) emsg =
      (evs.map toGateEvent ++ [errEvent PyErr.runtimeError emsg], none) ∧
    generate_stream_gate (evs, some PyErr.nameError) emsg =
      (evs.map toGateEvent, some PyErr.nameError) ∧
    (errEvent PyErr.oom emsg).error_code = ErrorCode.CUDA_OUT_OF_MEMORY ∧
    (errEvent PyErr.valueError emsg).error_code = ErrorCode.INTERNAL_ERROR ∧
    (errEvent PyErr.runtimeError emsg).error_code = ErrorCode.INTERNAL_ERROR ∧
    ErrorCode.CUDA_OUT_OF_MEMORY ≠ ErrorCode.INTERNAL_ERROR ∧
    ErrorCode.CUDA_OUT_OF_MEMORY ≠ 0 ∧ ErrorCode.INTERNAL_ERROR ≠ 0 ∧
    (∀ e, server_error_msg <+: (errEvent e emsg).text) ∧
    (∀ ev, (toGateEvent ev).error_code = 0) := by
  intro evs emsg
  refine ⟨rfl, rfl, rfl, rfl, rfl, rfl, rfl, rfl, by decide, by decide, by decide,
    ?_, fun ev => rfl⟩
  intro e
  exact ⟨"\n\n(".data ++ emsg e ++ ")".data, by simp [errEvent, List.append_assoc]⟩

lemma argmaxAux_spec : ∀ (xs : List ℚ) (bv : ℚ) (idx best : Nat),
    (argmaxAux xs bv idx best = best ∧ ∀ k, k < xs.length → xs.getD k 0 ≤ bv) ∨
    (∃ k, k < xs.length ∧ argmaxAux xs bv idx best = idx + k ∧ bv < xs.getD k 0 ∧
      (∀ j, j < xs.length → xs.getD j 0 ≤ xs.getD k 0) ∧
      (∀ j, j < k → xs.getD j 0 < xs.getD k 0)) := by
  intro xs
  induction xs with
  | nil =>
    intro bv idx best
    left
    exact ⟨rfl, fun k hk => absurd hk (by simp)⟩
  | cons x xs ih =>
    intro bv idx best
    by_cases hlt : bv < x
    · have hstep : argmaxAux (x :: xs) bv idx best =
          if bv < x then argmaxAux xs x (idx + 1) idx
          else argmaxAux xs bv (idx + 1) best := rfl
      have hrw : argmaxAux (x :: xs) bv idx best = argmaxAux xs x (idx + 1) idx := by
        rw [hstep, if_pos hlt]
      rcases ih x (idx + 1) idx with ⟨hres, hmax⟩ | ⟨k, hk, hres, hgt, hmax, hstrict⟩
      · right
        refine ⟨0, by simp, by rw [hrw, hres]; omega, by simpa using hlt, ?_, ?_⟩
        · intro j hj
          cases j with
          | zero => simp
          | succ j' =>
            simp only [List.getD_cons_succ, List.getD_cons_zero]
            exact hmax j' (by simpa using hj)
        · intro j hj
          omega
      · right
        refine ⟨k + 1, by simpa using hk, by rw [hrw, hres]; omega, ?_, ?_, ?_⟩
        · simp only [List.getD_cons_succ]
          exact hlt.trans hgt
        · intro j hj
          cases j with
          | zero =>
            simp only [List.getD_cons_zero, List.getD_cons_succ]
            exact hgt.le
          | succ j' =>
            simp only [List.getD_cons_succ]
            exact hmax j' (by simpa using hj)
        · intro j hj
          cases j with
          | zero =>
            simp only [List.getD_cons_zero, List.getD_cons_succ]
            exact hgt
          | succ j' =>
            simp only [List.getD_cons_succ]
            exact hstrict j' (by omega)
    · have hstep : argmaxAux (x :: xs) bv idx best =
          if bv < x then argmaxAux xs x (idx + 1) idx
          else argmaxAux xs bv (idx + 1) best := rfl
      have hrw : argmaxAux (x :: xs) bv idx best = argmaxAux xs bv (idx + 1) best := by
        rw [hstep, if_neg hlt]
      rcases ih bv (idx + 1) best with ⟨hres, hmax⟩ | ⟨k, hk, hres, hgt, hmax, hstrict⟩
      · left
        refine ⟨by rw [hrw, hres], ?_⟩
        intro k hk
        cases k with
        | zero => simpa using le_of_not_lt hlt
        | succ k' =>
          simp only [List.getD_cons_succ]
          exact hmax k' (by simpa using hk)
      · right
        refine ⟨k + 1, by simpa using hk, by rw [hrw, hres]; omega, ?_, ?_, ?_⟩
        · simp only [List.getD_cons_succ]
          exact hgt
        · intro j hj
          cases j with
          | zero =>
            simp only [List.getD_cons_zero, List.getD_cons_succ]
            exact (le_of_not_lt hlt).trans hgt.le
          | succ j' =>
            simp only [List.getD_cons_succ]
            exact hmax j' (by simpa using hj)
        · intro j hj
          cases j with
          | zero =>
            simp only [List.getD_cons_zero, List.getD_cons_succ]
            exact (le_of_not_lt hlt).trans_lt hgt
          | succ j' =>
            simp only [List.getD_cons_succ]
            exact hstrict j' (by omega)

lemma argmax_spec (x : ℚ) (xs : List ℚ) :
    argmax (x :: xs) < (x :: xs).length ∧
    (∀ j, j < (x :: xs).length →
      (x :: xs).getD j 0 ≤ (x :: xs).getD (argmax (x :: xs)) 0) ∧
    (∀ j, j < argmax (x :: xs) →
      (x :: xs).getD j 0 < (x :: xs).getD (argmax (x :: xs)) 0) := by
  rw [show argmax (x :: xs) = argmaxAux xs x 1 0 from rfl]
  rcases argmaxAux_spec xs x 1 0 with ⟨hres, hmax⟩ | ⟨k, hk, hres, hgt, hmax, hstrict⟩
  · rw [hres]
    refine ⟨by simp, ?_, ?_⟩
    · intro j hj
      cases j with
      | zero => simp
      | succ j' =>
        simp only [List.getD_cons_succ, List.getD_cons_zero]
        exact hmax j' (by simpa using hj)
    · intro j hj
      omega
  · have h1k : (1 : Nat) + k = k + 1 := by omega
    rw [hres, h1k]
    refine ⟨by simp; omega, ?_, ?_⟩
    · intro j hj
      cases j with
      | zero =>
        simp only [List.getD_cons_zero, List.getD_cons_succ]
        exact le_of_lt hgt
      | succ j' =>
        simp only [List.getD_cons_succ]
        exact hmax j' (by simpa using hj)
    · intro j hj
      cases j with
      | zero =>
        simp only [List.getD_cons_zero, List.getD_cons_succ]
        exact hgt
      | succ j' =>
        simp only [List.getD_cons_succ]
        exact hstrict j' (by omega)

/-- C3 (amended): in `generate_stream`, `temperature < 1e-5 or top_p < 1e-8`
selects greedily via argmax (which returns a maximal entry's index, ties
broken by the lowest index), and otherwise the token is the multinomial draw
from the softmax of the transformed scores; in `chatglm_generate_stream`,
sampling is instead disabled exactly when `temperature ≤ 1e-5`, and `top_p`
plays no role in that choice. -/
theorem greedy_vs_sampling : ∀ (temperature top_p : ℚ)
    (multinomialSample : Logits → Token) (softmax : Logits → Logits)
    (lt : Logits) (x : ℚ) (xs : List ℚ),
    ((temperature < mkRat 1 100000 ∨ top_p < mkRat 1 100000000) →
      selectToken temperature top_p multinomialSample softmax lt = argmax lt) ∧
    (¬(temperature < mkRat 1 100000 ∨ top_p < mkRat 1 100000000) →
      selectToken temperature top_p multinomialSample softmax lt =
        multinomialSample (softmax lt)) ∧
    (argmax (x :: xs) < (x :: xs).length ∧
     (∀ j, j < (x :: xs).length →
        (x :: xs).getD j 0 ≤ (x :: xs).getD (argmax (x :: xs)) 0) ∧
     (∀ j, j < argmax (x :: xs) →
        (x :: xs).getD j 0 < (x :: xs).getD (argmax (x :: xs)) 0)) ∧
    (chatglm_do_sample temperature = false ↔ temperature ≤ mkRat 1 100000) := by
  intro temperature top_p m s lt x xs
  refine ⟨?_, ?_, argmax_spec x xs, ?_⟩
  · intro h
    unfold selectToken
    rw [if_pos h]
  · intro h
    unfold selectToken
    rw [if_neg h]
  · unfold chatglm_do_sample
    rw [decide_eq_false_iff_not, not_lt]

/-- Witness for `greedy_vs_sampling`: greedy at temperature 0 (argmax picks
the first maximal entry), stochastic at temperature 1, and the chatglm
switch evaluated at temperature 0. -/
theorem greedy_vs_sampling_witness :
    selectToken 0 1 (fun _ => 5) (fun l => l) [2, 7, 7] = argmax [2, 7, 7] ∧
    argmax [2, 7, 7] = 1 ∧
    selectToken 1 1 (fun _ => 5) (fun l => l) [2, 7, 7] = 5 ∧
    (chatglm_do_sample 0 = false ↔ (0 : ℚ) ≤ mkRat 1 100000) := by
  have h := greedy_vs_sampling 0 1 (fun _ => 5) (fun l => l) [2, 7, 7] 2 [7, 7]
  have h2 := greedy_vs_sampling 1 1 (fun _ => 5) (fun l => l) [2, 7, 7] 2 [7, 7]
  have h3 := greedy_vs_sampling 0 1 (fun _ => 5) (fun l => l) [] 0 []
  exact ⟨h.1 (Or.inl (by decide)), by decide, h2.2.1 (by decide), h3.2.2.2⟩

/-- C3 counterexample: at `temperature = 0.95`, `top_p = 0` the claim's
greedy condition holds (`top_p < 1e-8`), demanding deterministic selection
in both loop variants, yet `chatglm_generate_stream` configures
`do_sample = (temperature > 1e-5) = True` (line 60) — `top_p` never enters
that decision and the chat loop samples stochastically. -/
theorem greedy_vs_sampling_cex :
    ((0 : ℚ) < mkRat 1 100000000 ∨ (mkRat 19 20 : ℚ) < mkRat 1 100000) ∧
    chatglm_do_sample (mkRat 19 20) = true := by
  exact ⟨by decide, by decide⟩

lemma sorted_getLast?_max : ∀ (l : List Nat), l.Pairwise (· < ·) →
    ∀ p, l.getLast? = some p → ∀ q ∈ l, q ≤ p := by
  intro l
  induction l with
  | nil =>
    intro _ p hp
    simp at hp
  | cons a t ih =>
    intro hpw p hp q hq
    cases t with
    | nil =>
      simp at hp hq
      omega
    | cons b t2 =>
      rw [List.getLast?_cons_cons] at hp
      rcases List.mem_cons.mp hq with rfl | hq2
      · have hpmem := List.mem_of_mem_getLast? hp
        exact ((List.pairwise_cons.mp hpw).1 p hpmem).le
      · exact ih (List.pairwise_cons.mp hpw).2 p hp q hq2

lemma pyRfind_some_spec (s sub : Text) (start : Nat) (p : Nat)
    (h : pyRfind s sub start = some p) :
    occursAt s sub p ∧ start ≤ p ∧ ∀ q, start ≤ q → occursAt s sub q → q ≤ p := by
  have hmem := List.mem_of_mem_getLast? h
  rw [List.mem_filter, decide_eq_true_eq] at hmem
  obtain ⟨hrange, hstart, hocc⟩ := hmem
  refine ⟨hocc, hstart, ?_⟩
  intro q hq hoccq
  have hqmem : q ∈ (List.range (s.length + 1)).filter
      fun r => decide (start ≤ r ∧ occursAt s sub r) := by
    rw [List.mem_filter, decide_eq_true_eq]
    have := hoccq.1
    exact ⟨List.mem_range.mpr (by omega), hq, hoccq⟩
  exact sorted_getLast?_max _ ((List.pairwise_lt_range _).filter _) p h q hqmem

lemma pyRfind_none_spec (s sub : Text) (start : Nat)
    (h : pyRfind s sub start = none) :
    ∀ q, start ≤ q → ¬ occursAt s sub q := by
  intro q hq hocc
  unfold pyRfind at h
  rw [List.getLast?_eq_none_iff] at h
  have hmem : q ∈ (List.range (s.length + 1)).filter
      fun r => decide (start ≤ r ∧ occursAt s sub r) := by
    rw [List.mem_filter, decide_eq_true_eq]
    have := hocc.1
    exact ⟨List.mem_range.mpr (by omega), hq, hocc⟩
  rw [h] at hmem
  simp at hmem

lemma pyRfind_none_of_before (output sub : Text) (rfind_start : Nat)
    (honly : ∀ q, q ≤ output.length → occursAt output sub q → q < rfind_start) :
    pyRfind output sub rfind_start = none := by
  cases hf : pyRfind output sub rfind_start with
  | none => rfl
  | some p =>
    exfalso
    obtain ⟨hocc, hstart, _⟩ := pyRfind_some_spec output sub rfind_start p hf
    have hple : p ≤ output.length := by
      have := hocc.1
      omega
    exact absurd (honly p hple hocc) (by omega)

lemma applyStopList_cases (output : Text) (rfind_start : Nat) :
    ∀ stops out hit, applyStopList output stops rfind_start = (out, hit) →
      (hit = false ∧ out = output) ∨
      (hit = true ∧ ∃ s pos, s ∈ stops ∧ pyRfind output s rfind_start = some pos ∧
        out = output.take pos) := by
  intro stops
  induction stops with
  | nil =>
    intro out hit h
    left
    unfold applyStopList at h
    injection h with h1 h2
    exact ⟨h2.symm, h1.symm⟩
  | cons s rest ih =>
    intro out hit h
    unfold applyStopList at h
    split at h
    next pos heq =>
      injection h with h1 h2
      exact Or.inr ⟨h2.symm, s, pos, List.mem_cons_self s rest, heq, h1.symm⟩
    next heq =>
      rcases ih out hit h with ⟨h1, h2⟩ | ⟨h1, s', pos, hmem, hfind, hout⟩
      · exact Or.inl ⟨h1, h2⟩
      · exact Or.inr ⟨h1, s', pos, List.mem_cons_of_mem s hmem, hfind, hout⟩

lemma applyStopSingle_bounds (output s : Text) (rfind_start : Nat) (out : Text)
    (hit : Bool) (h : applyStopSingle output s rfind_start = (out, hit)) :
    out <+: output ∧ output.take rfind_start <+: out := by
  unfold applyStopSingle at h
  split at h
  next pos heq =>
    injection h with h1 h2
    have hr : rfind_start ≤ pos := (pyRfind_some_spec output s rfind_start pos heq).2.1
    rw [← h1]
    exact ⟨List.take_prefix pos output, List.take_prefix_take_left output hr⟩
  next heq =>
    injection h with h1 h2
    rw [← h1]
    exact ⟨List.prefix_rfl, List.take_prefix rfind_start output⟩

lemma applyStopList_bounds (output : Text) (stops : List Text) (rfind_start : Nat)
    (out : Text) (hit : Bool) (h : applyStopList output stops rfind_start = (out, hit)) :
    out <+: output ∧ output.take rfind_start <+: out := by
  rcases applyStopList_cases output rfind_start stops out hit h with
    ⟨_, hout⟩ | ⟨_, s, pos, _, hfind, hout⟩
  · rw [hout]
    exact ⟨List.prefix_rfl, List.take_prefix rfind_start output⟩
  · have hr : rfind_start ≤ pos := (pyRfind_some_spec output s rfind_start pos hfind).2.1
    rw [hout]
    exact ⟨List.take_prefix pos output, List.take_prefix_take_left output hr⟩

lemma applyStop_bounds (stop : StopSpec) (output : Text) (rfind_start : Nat)
    (out : Text) (hit : Bool)
    (h : applyStop stop output rfind_start = Except.ok (out, hit)) :
    out <+: output ∧ output.take rfind_start <+: out := by
  have hid : (out, hit) = (output, false) →
      out <+: output ∧ output.take rfind_start <+: out := by
    intro hpair
    injection hpair with h1 h2
    rw [h1]
    exact ⟨List.prefix_rfl, List.take_prefix rfind_start output⟩
  cases stop with
  | str s =>
    unfold applyStop at h
    dsimp only at h
    split at h
    · injection h with h1
      exact applyStopSingle_bounds output s rfind_start out hit h1
    · injection h with h1
      exact hid h1.symm
  | strs l =>
    unfold applyStop at h
    dsimp only at h
    split at h
    · injection h with h1
      exact applyStopList_bounds output l rfind_start out hit h1
    · injection h with h1
      exact hid h1.symm
  | invalid =>
    unfold applyStop at h
    dsimp only at h
    split at h
    · exact absurd h (by simp)
    next hcond => exact absurd rfl hcond
  | none =>
    unfold applyStop at h
    dsimp only at h
    split at h
    · injection h with h1
      exact hid h1.symm
    · injection h with h1
      exact hid h1.symm

/-- C5: the stop-string scan of an emission step. (1)/(2): Python `rfind`
semantics — a hit is the last occurrence at or after `rfind_start`, a miss
means there is none. (3): the emitted text is a prefix of the decoded text
and never loses anything before `rfind_start`. (4)/(5): a stop string all of
whose occurrences start inside the echoed prompt (before `rfind_start`)
never triggers truncation. (6): the first configured stop string with a hit
truncates at its match start and the remaining stop strings are never
consulted. (7): the loop scans the decoded text from offset `len_prompt`
when echoing and 0 otherwise. -/
theorem stop_string_scan : ∀ (K : Type) (ctx : Ctx K) (ids : List Token)
    (s sub output out : Text) (start rfind_start pos : Nat) (rest : List Text)
    (stop : StopSpec) (hit : Bool),
    (pyRfind s sub start = some pos →
      occursAt s sub pos ∧ start ≤ pos ∧
        ∀ q, start ≤ q → occursAt s sub q → q ≤ pos) ∧
    (pyRfind s sub start = none → ∀ q, start ≤ q → ¬ occursAt s sub q) ∧
    (applyStop stop output rfind_start = Except.ok (out, hit) →
      out <+: output ∧ output.take rfind_start <+: out) ∧
    ((∀ q, q ≤ output.length → occursAt output sub q → q < rfind_start) →
      applyStopSingle output sub rfind_start = (output, false)) ∧
    ((∀ q, q ≤ output.length → occursAt output sub q → q < rfind_start) →
      applyStopList output (sub :: rest) rfind_start =
        applyStopList output rest rfind_start) ∧
    (pyRfind output sub rfind_start = some pos →
      applyStopList output (sub :: rest) rfind_start = (output.take pos, true)) ∧
    (renderAndStop ctx ids =
      applyStop ctx.stop
        (ctx.E.decode (if ctx.echo then ids else ids.drop ctx.input_echo_len))
        (if ctx.echo then ctx.len_prompt else 0)) := by
  intro K ctx ids s sub output out start rfind_start pos rest stop hit
  refine ⟨pyRfind_some_spec s sub start pos, pyRfind_none_spec s sub start,
    applyStop_bounds stop output rfind_start out hit, ?_, ?_, ?_, rfl⟩
  · intro honly
    unfold applyStopSingle
    rw [pyRfind_none_of_before output sub rfind_start honly]
  · intro honly
    have hnone := pyRfind_none_of_before output sub rfind_start honly
    show (match pyRfind output sub rfind_start with
      | some pos => (output.take pos, true)
      | Option.none => applyStopList output rest rfind_start) =
        applyStopList output rest rfind_start
    rw [hnone]
  · intro hfind
    show (match pyRfind output sub rfind_start with
      | some pos => (output.take pos, true)
      | Option.none => applyStopList output rest rfind_start) =
        (output.take pos, true)
    rw [hfind]

/-- Witness for `stop_string_scan` on concrete text: in
`"helloSTOPxx"` with prompt offset 0 the stop string `"STOP"` hits at 5 and
truncates to `"hello"` without consulting a later stop string, while with
`rfind_start = 6` the occurrence (only at 5) is ignored. -/
theorem stop_string_scan_witness :
    (occursAt "helloSTOPxx".data "STOP".data 5 ∧ 0 ≤ 5 ∧
      (0 ≤ 5 → occursAt "helloSTOPxx".data "STOP".data 5 → 5 ≤ 5)) ∧
    (∀ q, 6 ≤ q → ¬ occursAt "helloSTOPxx".data "STOP".data q) ∧
    (applyStopList "helloSTOPxx".data ["STOP".data, "ZZ".data] 0 =
      ("hello".data, true)) ∧
    (applyStopSingle "helloSTOPxx".data "STOP".data 6 = ("helloSTOPxx".data, false)) ∧
    ("hello".data <+: "helloSTOPxx".data ∧
      "helloSTOPxx".data.take 0 <+: "hello".data) := by
  have h := stop_string_scan Unit (mkCtx E0 p0 2048 2) [] "helloSTOPxx".data
    "STOP".data "helloSTOPxx".data "hello".data 0 0 5 ["ZZ".data]
    (StopSpec.strs ["STOP".data, "ZZ".data]) true
  have h6 := stop_string_scan Unit (mkCtx E0 p0 2048 2) [] "helloSTOPxx".data
    "STOP".data "helloSTOPxx".data "hello".data 6 6 5 []
    (StopSpec.str "STOP".data) true
  refine ⟨?_, ?_, ?_, ?_, ?_⟩
  · have hs := h.1 (by decide)
    exact ⟨hs.1, hs.2.1, fun _ _ => hs.2.2 5 (by decide) (by decide)⟩
  · exact h6.2.1 (by decide)
  · have := h.2.2.2.2.2.1 (by decide)
    rw [this]
    decide
  · exact h6.2.2.2.1 (by decide)
  · exact h.2.2.1 (by decide)

lemma pyTailSlice_suffix (l : List Token) (msl : Int) : pyTailSlice l msl <:+ l := by
  unfold pyTailSlice
  split
  · exact List.drop_suffix _ _
  · exact List.drop_suffix _ _

lemma genLoopAux_buffer_mono {K : Type} (ctx : Ctx K) :
    ∀ fuel i st evs stFin, genLoopAux ctx fuel i st = (evs, Except.ok stFin) →
      st.output_ids <+: stFin.output_ids := by
  intro fuel
  induction fuel with
  | zero =>
    intro i st evs stFin h
    unfold genLoopAux at h
    injection h with h1 h2
    injection h2 with h2
    rw [h2]
  | succ fuel ih =>
    intro i st evs stFin h
    unfold genLoopAux at h
    split at h
    · injection h with h1 h2
      exact absurd h2 (by simp)
    next st1 evOpt heq =>
      have hoid := (genStep_ok_fields heq).2.2.1
      have hpre1 : st.output_ids <+: st1.output_ids := by
        rw [hoid]
        exact ⟨[stepToken ctx i st], rfl⟩
      split at h
      · injection h with h1 h2
        injection h2 with h2
        rw [← h2]
        exact hpre1
      · injection h with h1 h2
        have hrec : genLoopAux ctx fuel (i + 1) st1 =
            ((genLoopAux ctx fuel (i + 1) st1).1, Except.ok stFin) := by
          rw [← h2]
        exact hpre1.trans (ih (i + 1) st1 _ stFin hrec)

lemma stepInput_pos {K : Type} (ctx : Ctx K) (i : Nat) (st : LoopSt K) (hi : i ≠ 0) :
    stepInput ctx i st = [st.lastToken] := by
  unfold stepInput
  rw [if_neg hi]

lemma genLoopAux_inputs_pos {K : Type} (ctx : Ctx K) :
    ∀ fuel i st evs stFin, 1 ≤ i →
      genLoopAux ctx fuel i st = (evs, Except.ok stFin) →
      ∃ news, stFin.scorerInputs = st.scorerInputs ++ news ∧
        (news.all fun l => l.length == 1) = true := by
  intro fuel
  induction fuel with
  | zero =>
    intro i st evs stFin hi h
    unfold genLoopAux at h
    injection h with h1 h2
    injection h2 with h2
    refine ⟨[], ?_, rfl⟩
    rw [h2]
    simp
  | succ fuel ih =>
    intro i st evs stFin hi h
    unfold genLoopAux at h
    split at h
    · injection h with h1 h2
      exact absurd h2 (by simp)
    next st1 evOpt heq =>
      have hsc := (genStep_ok_fields heq).2.2.2.1
      have hstep : stepInput ctx i st = [st.lastToken] :=
        stepInput_pos ctx i st (by omega)
      split at h
      · injection h with h1 h2
        injection h2 with h2
        refine ⟨[[st.lastToken]], ?_, by simp⟩
        rw [← h2, hsc, hstep]
      · injection h with h1 h2
        have hrec : genLoopAux ctx fuel (i + 1) st1 =
            ((genLoopAux ctx fuel (i + 1) st1).1, Except.ok stFin) := by
          rw [← h2]
        obtain ⟨news, hnews, hall⟩ := ih (i + 1) st1 _ stFin (by omega) hrec
        refine ⟨[st.lastToken] :: news, ?_, by simp [hall]⟩
        rw [hnews, hsc, hstep]
        simp

lemma genLoopAux_inputs_zero {K : Type} (ctx : Ctx K) :
    ∀ fuel st evs stFin, genLoopAux ctx fuel 0 st = (evs, Except.ok stFin) →
      stFin.scorerInputs = st.scorerInputs ∨
      ∃ tl, stFin.scorerInputs = st.scorerInputs ++ (ctx.inputIdsTrunc :: tl) ∧
        (tl.all fun l => l.length == 1) = true := by
  intro fuel st evs stFin h
  cases fuel with
  | zero =>
    unfold genLoopAux at h
    injection h with h1 h2
    injection h2 with h2
    rw [h2]
    exact Or.inl rfl
  | succ fuel =>
    unfold genLoopAux at h
    split at h
    · injection h with h1 h2
      exact absurd h2 (by simp)
    next st1 evOpt heq =>
      have hsc := (genStep_ok_fields heq).2.2.2.1
      have hstep : stepInput ctx 0 st = ctx.inputIdsTrunc := by
        unfold stepInput
        rw [if_pos rfl]
      split at h
      · injection h with h1 h2
        injection h2 with h2
        right
        refine ⟨[], ?_, rfl⟩
        rw [← h2, hsc, hstep]
      · injection h with h1 h2
        have hrec : genLoopAux ctx fuel 1 st1 =
            ((genLoopAux ctx fuel 1 st1).1, Except.ok stFin) := by
          rw [← h2]
        obtain ⟨news, hnews, hall⟩ :=
          genLoopAux_inputs_pos ctx fuel 1 st1 _ stFin (by omega) hrec
        right
        refine ⟨news, ?_, hall⟩
        rw [hnews, hsc, hstep]
        simp

lemma generate_stream_run_final_ok {K : Type} (E : Externals K) (p : Params)
    (cl si : Nat) (st : LoopSt K)
    (hfin : (generate_stream_run E p cl si).final = some st) :
    ∃ evs, genLoopAux (mkCtx E p cl si) p.max_new_tokens 0
      (initSt K (mkCtx E p cl si).input_ids) = (evs, Except.ok st) := by
  rcases hloop : genLoopAux (mkCtx E p cl si) p.max_new_tokens 0
      (initSt K (mkCtx E p cl si).input_ids) with ⟨evs, r⟩
  cases r with
  | error e =>
    exfalso
    have : (generate_stream_run E p cl si).final = none := by
      unfold generate_stream_run
      dsimp only
      rw [hloop]
    rw [this] at hfin
    exact Option.noConfusion hfin
  | ok st2 =>
    have hsome : (generate_stream_run E p cl si).final = some st2 := by
      unfold generate_stream_run
      dsimp only
      rw [hloop]
      dsimp only
      split
      · rfl
      · rfl
    rw [hsome] at hfin
    injection hfin with hst2
    rw [← hst2]
    exact ⟨evs, rfl⟩

/-- C10: the token buffer, the reported prompt token count and the
repetition-penalty history all use the full, untruncated prompt, while the
scorer only ever sees the truncation. `output_ids` starts as the full
`input_ids` (line 142 runs before the truncation of line 149) and keeps it
as a prefix; every emitted event reports `prompt_tokens` equal to the full
prompt length; the scorer's first input is `input_ids[-max_src_len:]`
(always a suffix of the full prompt, `context_len - max_new_tokens - 8` for
non-encoder-decoder models) and every later input is a single token; and
with `repetition_penalty > 1` the processor pipeline receives the full
`output_ids` history. -/
theorem untruncated_prompt_buffer : ∀ (K : Type) (E : Externals K) (p : Params)
    (cl si : Nat) (st : LoopSt K) (logits : Logits) (ids : List Token),
    (mkCtx E p cl si).input_ids = E.encode p.promptText ∧
    (mkCtx E p cl si).input_echo_len = (E.encode p.promptText).length ∧
    (initSt K (mkCtx E p cl si).input_ids).output_ids = (mkCtx E p cl si).input_ids ∧
    (mkCtx E p cl si).inputIdsTrunc <:+ (mkCtx E p cl si).input_ids ∧
    (E.is_encoder_decoder = false →
      (mkCtx E p cl si).inputIdsTrunc =
        pyTailSlice (E.encode p.promptText)
          ((cl : Int) - (p.max_new_tokens : Int) - 8)) ∧
    ((generate_stream_run E p cl si).final = some st →
      (mkCtx E p cl si).input_ids <+: st.output_ids ∧
      (st.scorerInputs = [] ∨
        ∃ tl, st.scorerInputs = (mkCtx E p cl si).inputIdsTrunc :: tl ∧
          (tl.all fun l => l.length == 1) = true)) ∧
    (((generate_stream_run E p cl si).events.all fun e =>
        e.usage.prompt_tokens == (E.encode p.promptText).length) = true) ∧
    (1 < p.repetition_penalty →
      transformLogits (mkCtx E p cl si) logits ids =
        E.applyProcessors (mkCtx E p cl si).procs (some ids) logits) := by
  intro K E p cl si st logits ids
  refine ⟨rfl, rfl, rfl, pyTailSlice_suffix _ _, ?_, ?_, ?_, ?_⟩
  · intro hed
    simp only [mkCtx, hed]
    rw [if_neg (by simp)]
  · intro hfin
    obtain ⟨evs, hloop⟩ := generate_stream_run_final_ok E p cl si st hfin
    constructor
    · exact genLoopAux_buffer_mono (mkCtx E p cl si) p.max_new_tokens 0 _ evs st hloop
    · have := genLoopAux_inputs_zero (mkCtx E p cl si) p.max_new_tokens _ evs st hloop
      rcases this with hl | ⟨tl, htl, hall⟩
      · exact Or.inl hl
      · exact Or.inr ⟨tl, htl, hall⟩
  · rw [List.all_eq_true]
    intro e he
    have := (generate_stream_run_events_spec E p cl si e he).1
    simpa [Nat.beq_eq_true_eq] using this
  · intro hrep
    unfold transformLogits
    have hne : ¬(mkCtx E p cl si).procs.isEmpty = true := by
      have hpr : (mkCtx E p cl si).procs =
          prepare_logits_processor p.temperature p.repetition_penalty p.top_p
            p.top_k := rfl
      rw [hpr]
      unfold prepare_logits_processor
      rw [if_pos hrep]
      simp
    rw [if_neg hne,
      if_pos (show (1 : ℚ) < (mkCtx E p cl si).repetition_penalty from hrep)]
    rfl

/-- The final loop state of the `E1`/`p1` run (one greedy step, no stop). -/
def stFinal1 : LoopSt Unit :=
  { past := some (), lastToken := 0, output_ids := [7, 0], outputText := some [],
    stopped := some false, iLast := some 0, scorerInputs := [[7]] }

/-- Witness for `untruncated_prompt_buffer`: the `E1`/`p1` run, whose final
state holds the full prompt plus one token and whose sole scorer input is
the (here untruncated) prompt; and the repetition-penalty history wiring
checked at `repetition_penalty = 2`. -/
theorem untruncated_prompt_buffer_witness :
    ((mkCtx E1 p1 2048 2).input_ids <+: stFinal1.output_ids ∧
     (stFinal1.scorerInputs = [] ∨
       ∃ tl, stFinal1.scorerInputs = (mkCtx E1 p1 2048 2).inputIdsTrunc :: tl ∧
         (tl.all fun l => l.length == 1) = true)) ∧
    ((mkCtx E1 p1 2048 2).inputIdsTrunc =
      pyTailSlice (E1.encode p1.promptText) ((2048 : Int) - (1 : Int) - 8)) ∧
    (transformLogits (mkCtx E1 { p1 with repetition_penalty := 2 } 2048 2) [1] [7] =
      E1.applyProcessors (mkCtx E1 { p1 with repetition_penalty := 2 } 2048 2).procs
        (some [7]) [1]) := by
  have h := untruncated_prompt_buffer Unit E1 p1 2048 2 stFinal1 [1] [7]
  have h2 := untruncated_prompt_buffer Unit E1 { p1 with repetition_penalty := 2 }
    2048 2 (initSt Unit []) [1] [7]
  exact ⟨h.2.2.2.2.2.1 (by decide), h.2.2.2.2.1 (by decide),
    h2.2.2.2.2.2.2.2 (by decide)⟩
